import Mathlib

set_option autoImplicit false

/-!
# B3 DI crawler (`src/b3/di/diCrawler.js`)

A shallow embedding of the three phases of the script:

* the `page.evaluate` callback that turns the `div.cards` elements of the page
  into the list `b3Data` (lines 24-37);
* the conversion of the entry at index 1 into `cetip_date` and `cetip_taxa`
  (lines 45-46);
* the database phase, which reads the last record of the `di` collection and
  pushes a new record unless its `Data` is the converted date (lines 48-61).

JavaScript strings are embedded as Lean strings, one `Char` per UTF-16 code
unit (text of the Basic Multilingual Plane).  Numbers are embedded for their
integer values only, with the rounding of IEEE-754 binary64 addition made
explicit.
-/

namespace DiCrawler

/-! ## Strings -/

/-- `String.prototype.substring(start, stop)`: both indices are clamped to the
length of the string, swapped when `start > stop`, and the characters from the
smaller index (inclusive) to the larger one (exclusive) are returned. -/
def substring (s : String) (start stop : Nat) : String :=
  let len := s.data.length
  let a := min start len
  let b := min stop len
  ⟨(s.data.drop (min a b)).take (max a b - min a b)⟩

/-! ## Extraction: the `page.evaluate` callback -/

/-- What the callback can see of one `div.cards` element: the `innerText` of
`el.querySelector('div.data')` and of `el.querySelector('div.valor')`, `none`
when `querySelector` returns `null`. -/
structure Card where
  data : Option String
  valor : Option String
  deriving DecidableEq

/-- The object `jubs` built for one card: the properties `dt` and `val`, each
either set to a string or absent. -/
structure Jubs where
  dt : Option String := none
  val : Option String := none
  deriving DecidableEq

/-- Body of the `try` block for one card.  Reading `.innerText` of `null`
raises a `TypeError`, which the empty `catch` swallows: the assignments made
before the exception stay, the later ones are skipped. -/
def tryBlock (el : Card) (jubs : Jubs) : Jubs :=
  match el.data with
  | none => jubs
  | some dt =>
    let jubs := { jubs with dt := some dt }
    match el.valor with
    | none => jubs
    | some v => { jubs with val := some v }

/-- The arrow function passed to `b3Elms.forEach`: start from `jubs = {}`, run
the `try` block, then `vals.push(jubs)`. -/
def forEachCallback (vals : List Jubs) (el : Card) : List Jubs :=
  let jubs : Jubs := {}
  let jubs := tryBlock el jubs
  vals ++ [jubs]

/-- The callback of `page.evaluate`: `vals = []`, the `forEach` loop over the
cards in document order, `return vals`. -/
def b3Data (b3Elms : List Card) : List Jubs :=
  b3Elms.foldl forEachCallback []

/-! ## Conversion -/

/-- Line 45: `'2018' + '-' + dt.substring(3,6) + '-' + dt.substring(0,2)`. -/
def cetip_date (dt : String) : String :=
  "2018" ++ "-" ++ substring dt 3 6 ++ "-" ++ substring dt 0 2

/-- Line 46: `val.substring(0,1) + '.' + val.substring(2,4)`. -/
def cetip_taxa (val : String) : String :=
  substring val 0 1 ++ "." ++ substring val 2 4

/-! ## Numbers and record fields -/

/-- Power of two by which a natural number of more than 53 bits has to be
divided so that 53 significant bits remain: `1` below `2 ^ 53`, and otherwise
twice the spacing of the half.  The first argument bounds the recursion; 1100
steps cover every finite binary64 magnitude. -/
def spacing : Nat → Nat → Nat
  | 0, _ => 1
  | fuel + 1, m => if m < 2 ^ 53 then 1 else 2 * spacing fuel (m / 2)

/-- Nearest binary64 value of a natural number, ties to the even significand
(IEEE-754 `roundTiesToEven`), for magnitudes that stay finite. -/
def roundNat (m : Nat) : Nat :=
  let q := spacing 1100 m
  let lo := m / q
  let r := m % q
  if 2 * r < q then lo * q
  else if q < 2 * r then (lo + 1) * q
  else if lo % 2 = 0 then lo * q
  else (lo + 1) * q

/-- Nearest binary64 value of an integer: rounding is symmetric in the sign. -/
def roundToDouble (z : Int) : Int :=
  if 0 ≤ z then (roundNat z.toNat : Int) else -(roundNat (-z).toNat : Int)

/-- The values a field of a stored record is read as: `undefined` for an
absent property, the JSON scalars `null`, booleans, integer-valued numbers and
strings, and `NaN`, which arithmetic on them can produce. -/
inductive JsVal where
  | undefined
  | null
  | bool (b : Bool)
  | num (n : Int)
  | nan
  | str (s : String)
  deriving DecidableEq

/-- The expression `val['id'] + 1`.  A string operand makes `+` a
concatenation with `"1"`; every other operand is converted with `ToNumber`
(`undefined` to `NaN`, `null` and `false` to `0`, `true` to `1`) and the sum
is rounded to binary64. -/
def addOne : JsVal → JsVal
  | .undefined => .nan
  | .null => .num 1
  | .bool b => .num (if b then 2 else 1)
  | .num n => .num (roundToDouble (n + 1))
  | .nan => .nan
  | .str s => .str (s ++ "1")

/-- The values of the `Data` property that the embedding covers: `undefined`
for an absent property, `null`, a string (what the script itself writes), and
an array whose items are strings or `null` (`none`).  Numbers and booleans,
which `==` compares through `ToNumber` of the other operand, are left out. -/
inductive DataVal where
  | undefined
  | null
  | str (s : String)
  | arr (items : List (Option String))
  deriving DecidableEq

/-- `Array.prototype.join(',')`, which `Array.prototype.toString` calls: a
`null` item gives the empty string, a string item gives itself, and the items
are separated by commas. -/
def join (items : List (Option String)) : String :=
  String.intercalate "," (items.map fun item => item.getD "")

/-- One record of the `di` collection, `{id, Data, DI}`. -/
structure DiRecord where
  id : JsVal
  Data : DataVal
  DI : JsVal
  deriving DecidableEq

/-- The loose comparison `val['Data'] == cetip_date` with a string on the
right.  `undefined` and `null` are loosely equal only to each other; two
strings are compared character by character; an array is an object, so it is
first converted to a primitive, the string that `toString` (that is, `join`)
returns, and that string is compared with the right operand. -/
def looseEq (data : DataVal) (cetip_date : String) : Bool :=
  match data with
  | .undefined => false
  | .null => false
  | .str s => decide (s = cetip_date)
  | .arr items => decide (join items = cetip_date)

/-! ## Database phase -/

/-- The state of the `di` collection of the lowdb store, oldest record
first.  A store without the key `di` reads like the empty collection:
`db.get('di').last().value()` is `undefined` in both cases. -/
abbrev Store := List DiRecord

/-- The exception a run can raise: reading a property of `undefined`. -/
inductive JsError where
  | typeError
  deriving DecidableEq

/-- Computations of the database phase: they read and update the store and may
throw.  The store survives an exception, as the state of the process does. -/
abbrev Run := ExceptT JsError (StateM Store)

/-- Reading a property of `x`, or calling a method on it: a `TypeError` when
`x` is `undefined`. -/
def deref {α : Type} (x : Option α) : Run α :=
  match x with
  | some a => pure a
  | none => throw JsError.typeError

/-- Lines 45-61.  The result is the line written to the console. -/
def databasePhase (b3_data : List Jubs) : Run String := do
  let entry ← deref b3_data[1]?
  let dt ← deref entry.dt
  let cetip_date := DiCrawler.cetip_date dt
  let entry ← deref b3_data[1]?
  let v ← deref entry.val
  let cetip_taxa := DiCrawler.cetip_taxa v
  let val ← deref (← get).getLast?
  if looseEq val.Data cetip_date then
    pure "Data already in database"
  else
    let id_ := addOne val.id
    modify fun di => di ++ [{ id := id_, Data := .str cetip_date, DI := JsVal.str cetip_taxa }]
    pure ("Data " ++ "\x7b " ++ cetip_date ++ " , " ++ cetip_taxa ++ " \x7d" ++ " insert successful")

/-- One run of the database phase on a store: what it logged or threw, and the
store it leaves. -/
def run (b3_data : List Jubs) (db : Store) : Except JsError String × Store :=
  (databasePhase b3_data).run.run db

/-! ## Predicates on stores -/

/-- The value is an integer-valued number. -/
def isInteger : JsVal → Bool
  | .num _ => true
  | _ => false

/-- `Number.isSafeInteger`: an integer of magnitude at most `2 ^ 53 - 1`. -/
def isSafeInteger : JsVal → Bool
  | .num n => decide (-(2 ^ 53) < n ∧ n < 2 ^ 53)
  | _ => false

/-- Both values are integers and the first is strictly below the second. -/
def idLt : JsVal → JsVal → Bool
  | .num m, .num n => decide (m < n)
  | _, _ => false

/-- Every record id of the store is an integer and the ids are strictly
increasing from the oldest record to the newest. -/
def IncreasingIds (db : Store) : Prop :=
  (∀ r ∈ db, isInteger r.id = true) ∧ db.Pairwise (fun a b => idLt a.id b.id = true)

instance (db : Store) : Decidable (IncreasingIds db) := by
  unfold IncreasingIds; infer_instance

/-! ## Auxiliary facts -/

/-- The loop appends, to the entries already pushed, one entry per card. -/
theorem foldl_forEachCallback (b3Elms : List Card) (vals : List Jubs) :
    b3Elms.foldl forEachCallback vals = vals ++ b3Elms.map (fun el => tryBlock el {}) := by
  induction b3Elms generalizing vals with
  | nil => simp
  | cons el rest ih => simp [ih, forEachCallback]

/-- The extracted list is the image of the cards under the `try` block. -/
theorem b3Data_eq_map (b3Elms : List Card) :
    b3Data b3Elms = b3Elms.map (fun el => tryBlock el {}) := by
  simp [b3Data, foldl_forEachCallback]

/-- The six ways through the database phase, as a case analysis on the
extracted list and on the store. -/
theorem run_eq (b3_data : List Jubs) (db : Store) :
    run b3_data db =
      match b3_data[1]? with
      | none => (.error .typeError, db)
      | some entry =>
        match entry.dt with
        | none => (.error .typeError, db)
        | some dt =>
          match entry.val with
          | none => (.error .typeError, db)
          | some v =>
            match db.getLast? with
            | none => (.error .typeError, db)
            | some val =>
              if looseEq val.Data (cetip_date dt) then (.ok "Data already in database", db)
              else
                (.ok ("Data " ++ "\x7b " ++ cetip_date dt ++ " , " ++ cetip_taxa v ++ " \x7d"
                        ++ " insert successful"),
                  db ++ [{ id := addOne val.id, Data := .str (cetip_date dt),
                           DI := JsVal.str (cetip_taxa v) }]) := by
  unfold run databasePhase
  cases h1 : b3_data[1]? with
  | none => rfl
  | some e =>
    cases h2 : e.dt with
    | none => simp [deref, h2]
    | some dt =>
      cases h3 : e.val with
      | none => simp [deref, h2, h3]
      | some v =>
        cases h4 : db.getLast? with
        | none =>
          simp [deref, h2, h3, h4, StateT.run, ExceptT.run, get, getThe, MonadStateOf.get,
            StateT.get, ExceptT.lift, ExceptT.mk, liftM, monadLift, MonadLift.monadLift, bind,
            StateT.bind, pure, StateT.pure, ExceptT.pure, ExceptT.bind, ExceptT.bindCont, throw,
            throwThe, MonadExceptOf.throw, Functor.map, ExceptT.map, StateT.map]
        | some val =>
          simp [deref, h2, h3, h4, StateT.run, ExceptT.run, get, getThe, MonadStateOf.get,
            StateT.get, ExceptT.lift, ExceptT.mk, liftM, monadLift, MonadLift.monadLift, bind,
            StateT.bind, pure, StateT.pure, ExceptT.pure, ExceptT.bind, ExceptT.bindCont, throw,
            throwThe, MonadExceptOf.throw, modify, modifyGet, MonadStateOf.modifyGet,
            StateT.modifyGet, Functor.map, ExceptT.map, StateT.map]
          split <;> rfl

/-- Below `2 ^ 53` consecutive integers are representable. -/
theorem spacing_of_lt (fuel : Nat) {m : Nat} (h : m < 2 ^ 53) : spacing fuel m = 1 := by
  cases fuel with
  | zero => rfl
  | succ k => simp only [spacing, if_pos h]

/-- Natural numbers below `2 ^ 53` are not rounded. -/
theorem roundNat_of_lt {m : Nat} (h : m < 2 ^ 53) : roundNat m = m := by
  simp [roundNat, spacing_of_lt 1100 h, Nat.mod_one]

/-- The bound `2 ^ 53` itself is representable. -/
theorem roundNat_two_pow_53 : roundNat (2 ^ 53) = 2 ^ 53 := by decide

/-- Adding one to a safe integer is exact. -/
theorem roundToDouble_succ_of_safe {n : Int} (hlo : -(2 ^ 53) < n) (hhi : n < 2 ^ 53) :
    roundToDouble (n + 1) = n + 1 := by
  unfold roundToDouble
  split
  · next h =>
    rcases Nat.lt_or_ge (n + 1).toNat (2 ^ 53) with hlt | hge
    · rw [roundNat_of_lt hlt]; omega
    · have : (n + 1).toNat = 2 ^ 53 := by omega
      rw [this, roundNat_two_pow_53]; omega
  · next h =>
    have hlt : (-(n + 1)).toNat < 2 ^ 53 := by omega
    rw [roundNat_of_lt hlt]; omega


/-! ## Extraction -/

/-- C10: the extracted list has one entry per card, in page order: it is as
long as the list of cards, and the entry at each index is built from the card
at that index: `{dt, val}` with both texts when the card has `div.data` and
`div.valor`, `{dt}` alone when it has `div.data` but no `div.valor`, and `{}`
when it has no `div.data`, whether or not it has `div.valor`. -/
theorem C10_extraction_one_entry_per_card (b3Elms : List Card) :
    (b3Data b3Elms).length = b3Elms.length ∧
    ∀ (i : Nat) (el : Card), b3Elms[i]? = some el →
      ∃ jubs : Jubs, (b3Data b3Elms)[i]? = some jubs ∧
        (∀ d v, el.data = some d → el.valor = some v → jubs = { dt := some d, val := some v }) ∧
        (∀ d, el.data = some d → el.valor = none → jubs = { dt := some d, val := none }) ∧
        (el.data = none → jubs = { dt := none, val := none }) := by
  refine ⟨by simp [b3Data_eq_map], ?_⟩
  intro i el hel
  refine ⟨tryBlock el {}, by simp [b3Data_eq_map, hel], ?_, ?_, ?_⟩
  · intro d v hd hv
    simp [tryBlock, hd, hv]
  · intro d hd hv
    simp [tryBlock, hd, hv]
  · intro hd
    simp [tryBlock, hd]

/-- C10 at a page of three cards, the second without `div.data` (but with
`div.valor`), the third without `div.valor`: the entry at index 1 is empty and
the entry at index 2 still belongs to the third card. -/
theorem C10_extraction_one_entry_per_card_witness :
    (b3Data [⟨some "20/12/2018", some "85.269"⟩, ⟨none, some "6,39%"⟩,
        ⟨some "21/12/2018", none⟩])[1]? = some { dt := none, val := none } ∧
    (b3Data [⟨some "20/12/2018", some "85.269"⟩, ⟨none, some "6,39%"⟩,
        ⟨some "21/12/2018", none⟩])[2]? = some { dt := some "21/12/2018", val := none } :=
  ⟨match (C10_extraction_one_entry_per_card
      [⟨some "20/12/2018", some "85.269"⟩, ⟨none, some "6,39%"⟩,
        ⟨some "21/12/2018", none⟩]).2 1 ⟨none, some "6,39%"⟩ rfl with
    | ⟨_, hj, _, _, h3⟩ => h3 rfl ▸ hj,
   match (C10_extraction_one_entry_per_card
      [⟨some "20/12/2018", some "85.269"⟩, ⟨none, some "6,39%"⟩,
        ⟨some "21/12/2018", none⟩]).2 2 ⟨some "21/12/2018", none⟩ rfl with
    | ⟨_, hj, _, h2, _⟩ => h2 "21/12/2018" rfl rfl ▸ hj⟩

/-! ## Conversion of the entry at index 1 -/

/-- C6: on a raw date of the form DD/MM/YYYY the code does not produce
YYYY-MM-DD.  The year is the constant `2018` whatever the raw year, and the
month slice `substring(3,6)` is three characters long, so it carries the slash
after the month: `21/12/2019` becomes `2018-12/` followed by `-21`. -/
theorem C6_cetip_date_keeps_slash_and_fixed_year :
    (∀ d1 d2 m1 m2 y1 y2 y3 y4 : Char,
      cetip_date ⟨[d1, d2, '/', m1, m2, '/', y1, y2, y3, y4]⟩
        = ⟨['2', '0', '1', '8', '-', m1, m2, '/', '-', d1, d2]⟩) ∧
    cetip_date "21/12/2019" = "2018-12/-21" ∧
    cetip_date "21/12/2019" ≠ "2019-12-21" := by
  refine ⟨?_, by decide, by decide⟩
  intro d1 d2 m1 m2 y1 y2 y3 y4
  rfl

/-- C7: the integer part is read with `substring(0,1)` and the decimals with
`substring(2,4)`.  With a one-digit integer part the result is the numeral
with a point, whatever follows the two decimals; with a two-digit integer part
the slices are misplaced: `'12,39%'` becomes `'1.,3'`. -/
theorem C7_cetip_taxa_one_digit_only :
    (∀ (i d1 d2 : Char) (suffix : List Char),
      cetip_taxa ⟨i :: ',' :: d1 :: d2 :: suffix⟩ = ⟨[i, '.', d1, d2]⟩) ∧
    cetip_taxa "6,39%" = "6.39" ∧
    cetip_taxa "12,39%" = "1.,3" ∧
    cetip_taxa "12,39%" ≠ "12.39" := by
  refine ⟨?_, by decide, by decide, by decide⟩
  intro i d1 d2 suffix
  simp [cetip_taxa, substring]
  rfl


/-! ## Database phase -/

/-- C1: deduplication.  For a non-empty store and extracted data whose entry at
index 1 has a date and a value, if the `Data` of the last record equals the
converted date, the run logs `Data already in database` and leaves the store
exactly as it was. -/
theorem C1_dedup_leaves_store_unchanged (b3_data : List Jubs) (db : Store) (entry : Jubs)
    (dt v : String) (hentry : b3_data[1]? = some entry) (hdt : entry.dt = some dt)
    (hval : entry.val = some v) (hne : db ≠ [])
    (hsame : (db.getLast hne).Data = .str (cetip_date dt)) :
    run b3_data db = (.ok "Data already in database", db) := by
  rw [run_eq]
  simp [hentry, hdt, hval, List.getLast?_eq_getLast _ hne, looseEq, hsame]

/-- C1 on a store of two records whose last one already holds the converted
date. -/
theorem C1_dedup_leaves_store_unchanged_witness :
    run [⟨some "IBOVESPA", some "85.269"⟩, ⟨some "21/12/2018", some "6,39%"⟩]
        [⟨.num 1, .str "2018-12/-20", .str "6.40"⟩, ⟨.num 2, .str "2018-12/-21", .str "6.39"⟩]
      = (.ok "Data already in database",
        [⟨.num 1, .str "2018-12/-20", .str "6.40"⟩, ⟨.num 2, .str "2018-12/-21", .str "6.39"⟩]) :=
  C1_dedup_leaves_store_unchanged
    [⟨some "IBOVESPA", some "85.269"⟩, ⟨some "21/12/2018", some "6,39%"⟩]
    [⟨.num 1, .str "2018-12/-20", .str "6.40"⟩, ⟨.num 2, .str "2018-12/-21", .str "6.39"⟩]
    ⟨some "21/12/2018", some "6,39%"⟩ "21/12/2018" "6,39%" rfl rfl rfl (by simp) (by decide)

/-- C4: append-only store.  Whatever the store and the extracted data, the
store before a run is a prefix of the store after it, and the run adds at most
one record. -/
theorem C4_store_is_append_only (b3_data : List Jubs) (db : Store) :
    db <+: (run b3_data db).2 ∧ (run b3_data db).2.length ≤ db.length + 1 := by
  rw [run_eq]
  constructor <;> (repeat (any_goals split)) <;> simp

/-- C5: on the empty store there is no last record, `val` is `undefined`, and
reading `val['Data']` throws: whatever was extracted, the run ends in a
`TypeError` and the store stays empty, so nothing is appended. -/
theorem C5_empty_store_throws (b3_data : List Jubs) :
    run b3_data [] = (.error .typeError, []) := by
  rw [run_eq]
  (repeat (any_goals split)) <;> simp_all

/-- C8: idempotence.  For a non-empty store and extracted data whose entry at
index 1 has a date and a value, a second run with the same data logs
`Data already in database` and leaves the store as the first run left it.  The
id of the last record plays no part, so the statement holds in particular when
it is an integer. -/
theorem C8_second_run_changes_nothing (b3_data : List Jubs) (db : Store) (entry : Jubs)
    (dt v : String) (hentry : b3_data[1]? = some entry) (hdt : entry.dt = some dt)
    (hval : entry.val = some v) (hne : db ≠ []) :
    run b3_data (run b3_data db).2 = (.ok "Data already in database", (run b3_data db).2) := by
  rw [run_eq b3_data db]
  simp only [hentry, hdt, hval, List.getLast?_eq_getLast _ hne]
  split
  · next h =>
    rw [run_eq]
    simp [hentry, hdt, hval, List.getLast?_eq_getLast _ hne, h]
  · rw [run_eq]
    simp [hentry, hdt, hval, looseEq]

/-- C8 on a store whose last record holds an older date: the first run appends,
the second one does not. -/
theorem C8_second_run_changes_nothing_witness :
    run [⟨some "IBOVESPA", some "85.269"⟩, ⟨some "21/12/2018", some "6,39%"⟩]
        (run [⟨some "IBOVESPA", some "85.269"⟩, ⟨some "21/12/2018", some "6,39%"⟩]
          [⟨.num 1, .str "2018-12/-20", .str "6.40"⟩]).2
      = (.ok "Data already in database",
        (run [⟨some "IBOVESPA", some "85.269"⟩, ⟨some "21/12/2018", some "6,39%"⟩]
          [⟨.num 1, .str "2018-12/-20", .str "6.40"⟩]).2) :=
  C8_second_run_changes_nothing
    [⟨some "IBOVESPA", some "85.269"⟩, ⟨some "21/12/2018", some "6,39%"⟩]
    [⟨.num 1, .str "2018-12/-20", .str "6.40"⟩]
    ⟨some "21/12/2018", some "6,39%"⟩ "21/12/2018" "6,39%" rfl rfl rfl (by simp)

/-- C9: when the extracted list has fewer than two entries, or its entry at
index 1 lacks `dt` or lacks `val`, the run throws a `TypeError` and the store
is exactly as it was. -/
theorem C9_failure_leaves_store_unchanged (b3_data : List Jubs) (db : Store)
    (h : b3_data.length < 2 ∨
      ∃ entry, b3_data[1]? = some entry ∧ (entry.dt = none ∨ entry.val = none)) :
    run b3_data db = (.error .typeError, db) := by
  rw [run_eq]
  rcases h with hlen | ⟨entry, hentry, hdt | hval⟩
  · have : b3_data[1]? = none := by simp; omega
    simp [this]
  · simp [hentry, hdt]
  · simp only [hentry, hval]
    split <;> rfl

/-- C9 on a page whose second card has no `div.valor`: the entry at index 1
has `dt` only. -/
theorem C9_failure_leaves_store_unchanged_witness :
    run (b3Data [⟨some "IBOVESPA", some "85.269"⟩, ⟨some "21/12/2018", none⟩])
        [⟨.num 1, .str "2018-12/-20", .str "6.40"⟩]
      = (.error .typeError, [⟨.num 1, .str "2018-12/-20", .str "6.40"⟩]) :=
  C9_failure_leaves_store_unchanged
    (b3Data [⟨some "IBOVESPA", some "85.269"⟩, ⟨some "21/12/2018", none⟩])
    [⟨.num 1, .str "2018-12/-20", .str "6.40"⟩]
    (Or.inr ⟨⟨some "21/12/2018", none⟩, rfl, Or.inr rfl⟩)


/-- C2 as stated fails in two ways.  Above the safe integers: with a last id
of `2 ^ 53` the sum `val['id'] + 1` rounds back to `2 ^ 53`, so the pushed
record has the id `9007199254740992` and not `9007199254740993`.  And under
the loose `==` of line 51: a last record with the id 1 whose `Data` is the
one-item array holding the converted date has a `Data` different from the
converted date, a string, yet the comparison converts the array to that very
string, the run logs `Data already in database` and nothing is pushed. -/
theorem C2_counterexample_id_not_successor :
    ((run [⟨some "IBOVESPA", some "85.269"⟩, ⟨some "21/12/2018", some "6,39%"⟩]
        [⟨.num 9007199254740992, .str "2018-12/-20", .str "6.40"⟩]).2
      = [⟨.num 9007199254740992, .str "2018-12/-20", .str "6.40"⟩,
         ⟨.num 9007199254740992, .str "2018-12/-21", .str "6.39"⟩] ∧
     (run [⟨some "IBOVESPA", some "85.269"⟩, ⟨some "21/12/2018", some "6,39%"⟩]
        [⟨.num 9007199254740992, .str "2018-12/-20", .str "6.40"⟩]).2
      ≠ [⟨.num 9007199254740992, .str "2018-12/-20", .str "6.40"⟩] ++
          [⟨.num (9007199254740992 + 1), .str (cetip_date "21/12/2018"),
            .str (cetip_taxa "6,39%")⟩]) ∧
    (DataVal.arr [some "2018-12/-21"] ≠ DataVal.str (cetip_date "21/12/2018") ∧
     run [⟨some "IBOVESPA", some "85.269"⟩, ⟨some "21/12/2018", some "6,39%"⟩]
        [⟨.num 1, .arr [some "2018-12/-21"], .str "6.39"⟩]
      = (.ok "Data already in database", [⟨.num 1, .arr [some "2018-12/-21"], .str "6.39"⟩]) ∧
     (run [⟨some "IBOVESPA", some "85.269"⟩, ⟨some "21/12/2018", some "6,39%"⟩]
        [⟨.num 1, .arr [some "2018-12/-21"], .str "6.39"⟩]).2
      ≠ [⟨.num 1, .arr [some "2018-12/-21"], .str "6.39"⟩] ++
          [⟨.num (1 + 1), .str (cetip_date "21/12/2018"), .str (cetip_taxa "6,39%")⟩]) := by
  refine ⟨⟨by decide, by decide⟩, by decide, rfl, by decide⟩

/-- A string is loosely equal to the converted date only when it is the same
string. -/
theorem looseEq_str_of_ne {s date : String} (h : s ≠ date) :
    looseEq (.str s) date = false := by
  simp [looseEq, h]

/-- C2, amended: for a non-empty store whose last record has a safe-integer id
(magnitude below `2 ^ 53`) and a `Data` that is a string different from the
converted date, and extracted data whose entry at index 1 has a date and a
value, the run yields the old store followed by exactly one new record
`{id: last.id + 1, Data: cetip_date, DI: cetip_taxa}`. -/
theorem C2_append_new_record (b3_data : List Jubs) (db : Store) (entry : Jubs)
    (dt v s : String) (n : Int) (hentry : b3_data[1]? = some entry)
    (hdt : entry.dt = some dt) (hval : entry.val = some v) (hne : db ≠ [])
    (hid : (db.getLast hne).id = .num n) (hlo : -(2 ^ 53) < n) (hhi : n < 2 ^ 53)
    (hstr : (db.getLast hne).Data = .str s) (hdiff : s ≠ cetip_date dt) :
    (run b3_data db).2
      = db ++ [{ id := .num (n + 1), Data := .str (cetip_date dt), DI := .str (cetip_taxa v) }] := by
  rw [run_eq]
  simp [hentry, hdt, hval, List.getLast?_eq_getLast _ hne, hstr, looseEq_str_of_ne hdiff, hid,
    addOne, roundToDouble_succ_of_safe hlo hhi]

/-- C2, amended, on a store whose last record has id 1 and an older date. -/
theorem C2_append_new_record_witness :
    (run [⟨some "IBOVESPA", some "85.269"⟩, ⟨some "21/12/2018", some "6,39%"⟩]
        [⟨.num 1, .str "2018-12/-20", .str "6.40"⟩]).2
      = [⟨.num 1, .str "2018-12/-20", .str "6.40"⟩] ++
          [{ id := .num (1 + 1), Data := .str (cetip_date "21/12/2018"),
             DI := .str (cetip_taxa "6,39%") }] :=
  C2_append_new_record
    [⟨some "IBOVESPA", some "85.269"⟩, ⟨some "21/12/2018", some "6,39%"⟩]
    [⟨.num 1, .str "2018-12/-20", .str "6.40"⟩]
    ⟨some "21/12/2018", some "6,39%"⟩ "21/12/2018" "6,39%" "2018-12/-20" 1 rfl rfl rfl
    (by simp) rfl (by decide) (by decide) rfl (by decide)

/-- C3 as stated fails above the safe integers: the ids 1 and `2 ^ 54` are
integers in strictly increasing order, the run appends a record whose id is
again `2 ^ 54`, and the ids of the new store are not strictly increasing. -/
theorem C3_counterexample_id_repeats :
    IncreasingIds [⟨.num 1, .str "2018-12/-19", .str "6.40"⟩,
        ⟨.num 18014398509481984, .str "2018-12/-20", .str "6.40"⟩] ∧
    (run [⟨some "IBOVESPA", some "85.269"⟩, ⟨some "21/12/2018", some "6,39%"⟩]
        [⟨.num 1, .str "2018-12/-19", .str "6.40"⟩,
         ⟨.num 18014398509481984, .str "2018-12/-20", .str "6.40"⟩]).2
      = [⟨.num 1, .str "2018-12/-19", .str "6.40"⟩,
         ⟨.num 18014398509481984, .str "2018-12/-20", .str "6.40"⟩,
         ⟨.num 18014398509481984, .str "2018-12/-21", .str "6.39"⟩] ∧
    ¬ IncreasingIds
      (run [⟨some "IBOVESPA", some "85.269"⟩, ⟨some "21/12/2018", some "6,39%"⟩]
        [⟨.num 1, .str "2018-12/-19", .str "6.40"⟩,
         ⟨.num 18014398509481984, .str "2018-12/-20", .str "6.40"⟩]).2 := by
  refine ⟨by decide, by decide, by decide⟩

/-- The order on integer ids is transitive. -/
theorem idLt_trans {a b c : JsVal} (hab : idLt a b = true) (hbc : idLt b c = true) :
    idLt a c = true := by
  cases a <;> cases b <;> cases c <;> simp_all [idLt]
  omega

/-- In a store with increasing ids, every record but the last has an id below
the id of the last one. -/
theorem idLt_getLast {db : Store} (hinc : db.Pairwise (fun a b => idLt a.id b.id = true))
    (hne : db ≠ []) (r : DiRecord) (hr : r ∈ db.dropLast) :
    idLt r.id (db.getLast hne).id = true := by
  have hsplit := List.dropLast_append_getLast hne
  rw [← hsplit] at hinc
  exact (List.pairwise_append.mp hinc).2.2 r hr _ (by simp)

/-- Every id of a non-empty store with increasing ids is below any integer
above the last id. -/
theorem idLt_of_lt_last {db : Store} (hinc : db.Pairwise (fun a b => idLt a.id b.id = true))
    (hne : db ≠ []) {n m : Int} (hid : (db.getLast hne).id = .num n) (hnm : n < m)
    (r : DiRecord) (hr : r ∈ db) : idLt r.id (.num m) = true := by
  have hlast : idLt (db.getLast hne).id (.num m) = true := by simp [hid, idLt, hnm]
  rw [← List.dropLast_append_getLast hne] at hr
  rcases List.mem_append.mp hr with h | h
  · exact idLt_trans (idLt_getLast hinc hne r h) hlast
  · have : r = db.getLast hne := by simpa using h
    rw [this]; exact hlast

/-- C3, amended: for a store whose ids are safe integers (magnitude below
`2 ^ 53`) in strictly increasing order, the store after a run still has
integer ids in strictly increasing order; and when the run appended a record,
its id is an integer strictly greater than the id of every record already
stored. -/
theorem C3_ids_stay_increasing (b3_data : List Jubs) (db : Store)
    (hsafe : ∀ r ∈ db, isSafeInteger r.id = true) (hinc : IncreasingIds db) :
    IncreasingIds (run b3_data db).2 ∧
    ∀ new : DiRecord, (run b3_data db).2 = db ++ [new] →
      ∀ r ∈ db, idLt r.id new.id = true := by
  have hsame : ∀ new : DiRecord, db = db ++ [new] → ∀ r ∈ db, idLt r.id new.id = true := by
    intro new h
    have := congrArg List.length h
    simp at this
  rw [run_eq]
  split
  · exact ⟨hinc, hsame⟩
  split
  · exact ⟨hinc, hsame⟩
  split
  · exact ⟨hinc, hsame⟩
  split
  · exact ⟨hinc, hsame⟩
  next dt _ v _ val hval =>
  split
  · exact ⟨hinc, hsame⟩
  have hne : db ≠ [] := by
    intro h; simp [h] at hval
  have hlast : val = db.getLast hne := by
    rw [List.getLast?_eq_getLast _ hne] at hval
    exact (Option.some.inj hval).symm
  have hmem : val ∈ db := by rw [hlast]; exact List.getLast_mem hne
  have hs := hsafe val hmem
  cases hid : val.id with
  | num n =>
    rw [hid] at hs
    simp only [isSafeInteger, decide_eq_true_eq] at hs
    have hround : addOne (.num n) = .num (n + 1) := by
      simp [addOne, roundToDouble_succ_of_safe hs.1 hs.2]
    have hbelow := idLt_of_lt_last hinc.2 hne (hlast ▸ hid) (Int.lt_succ n)
    simp only [hround]
    refine ⟨⟨?_, ?_⟩, ?_⟩
    · intro r hr
      rcases List.mem_append.mp hr with h | h
      · exact hinc.1 r h
      · rw [List.mem_singleton] at h
        rw [h]; rfl
    · rw [List.pairwise_append]
      refine ⟨hinc.2, by simp, ?_⟩
      intro a ha b hb
      rw [List.mem_singleton] at hb
      rw [hb]
      exact hbelow a ha
    · intro new hnew r hr
      have hnew := List.append_cancel_left hnew
      rw [← List.singleton_inj.mp hnew]
      exact hbelow r hr
  | _ => rw [hid] at hs; simp [isSafeInteger] at hs

/-- C3, amended, on a store with the ids 1 and 2: the run appends a record
with the id 3, the ids stay increasing and the new id is above the last one. -/
theorem C3_ids_stay_increasing_witness :
    IncreasingIds
      (run [⟨some "IBOVESPA", some "85.269"⟩, ⟨some "21/12/2018", some "6,39%"⟩]
        [⟨.num 1, .str "2018-12/-19", .str "6.40"⟩,
         ⟨.num 2, .str "2018-12/-20", .str "6.40"⟩]).2 ∧
    idLt (DiRecord.id ⟨.num 2, .str "2018-12/-20", .str "6.40"⟩)
      (DiRecord.id ⟨.num 3, .str "2018-12/-21", .str "6.39"⟩) = true :=
  ⟨(C3_ids_stay_increasing
      [⟨some "IBOVESPA", some "85.269"⟩, ⟨some "21/12/2018", some "6,39%"⟩]
      [⟨.num 1, .str "2018-12/-19", .str "6.40"⟩, ⟨.num 2, .str "2018-12/-20", .str "6.40"⟩]
      (by decide) (by decide)).1,
   (C3_ids_stay_increasing
      [⟨some "IBOVESPA", some "85.269"⟩, ⟨some "21/12/2018", some "6,39%"⟩]
      [⟨.num 1, .str "2018-12/-19", .str "6.40"⟩, ⟨.num 2, .str "2018-12/-20", .str "6.40"⟩]
      (by decide) (by decide)).2
      ⟨.num 3, .str "2018-12/-21", .str "6.39"⟩ (by decide)
      ⟨.num 2, .str "2018-12/-20", .str "6.40"⟩ (by decide)⟩

end DiCrawler
